import Mathlib

/-!
Shallow embedding of three fragments of a web framework excerpt:

* `src/packages/next/src/lib/metadata/resolve-metadata.ts`
  (`merge`, `getDefinedMetadata`, `accumulateMetadata`),
* an unnamed TypeScript-diagnostic formatter
  (`getFormattedLinkDiagnosticMessageText`,
   `getFormattedLayoutAndPageDiagnosticMessageText`, `getFormattedDiagnostic`),
* an unnamed router-state factory (`createInitialRouterState`).

JavaScript values that the code only moves around (metadata field values,
resolver results) are modelled by an opaque value type `JSVal` carrying
JavaScript truthiness.  Functions imported from files outside this excerpt
(the `resolve*` helpers, `mergeTitle`, `createDefaultMetadata`, `chalk`,
`path`, `codeFrameColumns`, `ts.flattenDiagnosticMessageText`,
`createHrefFromUrl`) are abstracted as parameters, so every theorem holds
for all behaviours of those collaborators.
-/

namespace NextExcerpt

/-- A JavaScript value, kept opaque except for the truthiness distinctions the
code under study actually branches on.  `vundef` is `undefined`, `vobj` an
arbitrary (always truthy) object identified by a tag. -/
inductive JSVal where
  | vundef
  | vnull
  | vbool (b : Bool)
  | vnum (n : Int)
  | vstr (s : String)
  | vobj (tag : Nat)
deriving DecidableEq, Repr

/-- JavaScript truthiness of a `JSVal` (`undefined`, `null`, `false`, `0` and
the empty string are falsy; everything else here is truthy). -/
def truthy : JSVal → Bool
  | .vundef => false
  | .vnull => false
  | .vbool b => b
  | .vnum n => !(n = 0)
  | .vstr s => !(s = "")
  | .vobj _ => true

/-- JavaScript `a || b` restricted to the places the code uses it on plain
values (`source[key] || null` and the like). -/
def jsOr (v d : JSVal) : JSVal := if truthy v then v else d

namespace ResolveMetadata

/-- The enumerable keys that `merge` switches on, plus `unknownKey` for any
other property name a source object may carry (the switch's `default`). -/
inductive Key where
  | title | alternates | openGraph | twitter | verification | viewport
  | icons | appleWebApp | appLinks | robots
  | archives | assets | bookmarks | keywords | authors
  | applicationName | description | generator | themeColor | creator
  | publisher | category | classification | referrer | colorScheme
  | itunes | formatDetection
  | other | metadataBase
  | unknownKey (s : String)
deriving DecidableEq, Repr

/-- A `Metadata` source object: its enumerable own properties in insertion
order, as iterated by `for (const key_ in source)`.  Real JavaScript objects
never repeat a key. -/
abbrev Metadata := List (Key × JSVal)

/-- A `ResolvedMetadata` target object, read and written one field at a
time. -/
abbrev ResolvedMetadata := Key → JSVal

/-- The `templateStrings` argument of `merge`. -/
structure Templates where
  title : Option String
  openGraph : Option String
  twitter : Option String

/-- External collaborators of `resolve-metadata.ts` that are imported from
files outside this excerpt (`./resolvers/*`, `./generate/utils`,
`./default-metadata`, plus the JavaScript built-in `Object.assign`).  They
are abstracted as value-level functions; each one is only ever used to
produce the value stored into the single field it is invoked for, exactly as
at its call sites in `merge`. -/
structure Resolvers where
  /-- value produced by `createDefaultMetadata()`. -/
  createDefaultMetadata : ResolvedMetadata
  resolveAlternates : JSVal → JSVal → JSVal
  resolveOpenGraph : JSVal → JSVal → JSVal
  resolveTwitter : JSVal → JSVal → JSVal
  resolveVerification : JSVal → JSVal
  resolveViewport : JSVal → JSVal
  resolveIcons : JSVal → JSVal
  resolveAppleWebApp : JSVal → JSVal
  resolveAppLinks : JSVal → JSVal
  resolveRobots : JSVal → JSVal
  /-- `resolveAsArrayOrUndefined`; `none` models `undefined`. -/
  resolveAsArrayOrUndefined : JSVal → Option JSVal
  /-- effect of `mergeTitle(target, template)` on `target.title`, applied to
  the title value just assigned from the source. -/
  mergeTitle : JSVal → Option String → JSVal
  /-- effect of `mergeTitle(obj, template)` on the `openGraph`/`twitter`
  object it is handed. -/
  mergeTitleOn : JSVal → Option String → JSVal
  /-- `Object.assign({}, target.other, source.other)`. -/
  objectAssign : JSVal → JSVal → JSVal
  /-- `v?.template || null` read on a resolved title value. -/
  titleTemplate : JSVal → Option String
  /-- `v?.title?.template || null` read on a resolved openGraph/twitter
  value. -/
  titledTemplate : JSVal → Option String

/-- One arm of the `switch (key)` in `merge`: the new value of target field
`k`, given that the source carries `k` with value `v`.  Arms that assign
nothing return the current target value unchanged. -/
def mergeEntryVal (R : Resolvers) (ts : Templates) (metadataBase : JSVal)
    (target : ResolvedMetadata) (k : Key) (v : JSVal) : JSVal :=
  match k with
  | .title => if truthy v then R.mergeTitle v ts.title else target Key.title
  | .alternates => R.resolveAlternates v metadataBase
  | .openGraph =>
    let og := R.resolveOpenGraph v metadataBase
    if truthy og then R.mergeTitleOn og ts.openGraph else og
  | .twitter =>
    let tw := R.resolveTwitter v metadataBase
    if truthy tw then R.mergeTitleOn tw ts.twitter else tw
  | .verification => R.resolveVerification v
  | .viewport => R.resolveViewport v
  | .icons => R.resolveIcons v
  | .appleWebApp => R.resolveAppleWebApp v
  | .appLinks => R.resolveAppLinks v
  | .robots => R.resolveRobots v
  | .archives => (R.resolveAsArrayOrUndefined v).getD JSVal.vnull
  | .assets => (R.resolveAsArrayOrUndefined v).getD JSVal.vnull
  | .bookmarks => (R.resolveAsArrayOrUndefined v).getD JSVal.vnull
  | .keywords => (R.resolveAsArrayOrUndefined v).getD JSVal.vnull
  | .authors => (R.resolveAsArrayOrUndefined v).getD JSVal.vnull
  | .applicationName => jsOr v JSVal.vnull
  | .description => jsOr v JSVal.vnull
  | .generator => jsOr v JSVal.vnull
  | .themeColor => jsOr v JSVal.vnull
  | .creator => jsOr v JSVal.vnull
  | .publisher => jsOr v JSVal.vnull
  | .category => jsOr v JSVal.vnull
  | .classification => jsOr v JSVal.vnull
  | .referrer => jsOr v JSVal.vnull
  | .colorScheme => jsOr v JSVal.vnull
  | .itunes => jsOr v JSVal.vnull
  | .formatDetection => jsOr v JSVal.vnull
  | .other => R.objectAssign (target Key.other) v
  | .metadataBase => metadataBase
  | .unknownKey s => target (Key.unknownKey s)

/-- One iteration of the `for (const key_ in source)` loop: process the
source entry `e`, assigning (at most) the target field named by `e.1`. -/
def mergeStep (R : Resolvers) (ts : Templates) (metadataBase : JSVal)
    (target : ResolvedMetadata) (e : Key × JSVal) : ResolvedMetadata :=
  fun k => if k = e.1 then mergeEntryVal R ts metadataBase target e.1 e.2 else target k

/-- The `metadataBase` binding read up front by `merge`:
`source.metadataBase || null`, with an absent key (`undefined`) collapsing
to `null`. -/
def metadataBaseOf (source : Metadata) : JSVal :=
  match List.lookup Key.metadataBase source with
  | some v => jsOr v JSVal.vnull
  | none => JSVal.vnull

/-- `merge(target, source, templateStrings)`: each enumerable source key is
processed in order by the `for (const key_ in source)` loop. -/
def merge (R : Resolvers) (target : ResolvedMetadata) (source : Metadata)
    (ts : Templates) : ResolvedMetadata :=
  source.foldl (mergeStep R ts (metadataBaseOf source)) target

/-- The first component of a `MetadataItems` entry:
`Metadata | MetadataResolver | null` with `null` modelled by `Option.none`
around this type.  A resolver is a function of the (resolved) parent
metadata: the `parent` promise handed to `generateMetadata` settles to the
metadata accumulated from all earlier layers, see `accumulateMetadata`. -/
inductive MetadataExport where
  | plain (m : Metadata)
  | resolver (f : ResolvedMetadata → Metadata)

/-- One entry of `MetadataItems`:
`[Metadata | MetadataResolver | null, Metadata | null]`. -/
abbrev MetadataItem := Option MetadataExport × Option Metadata

/-- The entry an object spread `\x7b ...a, ...b \x7d` keeps for a key of
`a`: `b`'s value when `b` also carries the key, else `a`'s entry. -/
def canonEntry (b : Metadata) (e : Key × JSVal) : Key × JSVal :=
  match List.lookup e.1 b with
  | some v => (e.1, v)
  | none => e

/-- The object spread `\x7b ...a, ...b \x7d`: `a`'s keys in order with `b`'s
values where `b` also has the key, followed by `b`'s keys not in `a`. -/
def spreadObj (a b : Metadata) : Metadata :=
  a.map (canonEntry b) ++ b.filter fun e => (List.lookup e.1 a).isNone

/-- The template strings passed to `merge` inside `accumulateMetadata`,
read from the accumulated metadata. -/
def templatesOf (R : Resolvers) (resolved : ResolvedMetadata) : Templates where
  title := R.titleTemplate (resolved Key.title)
  openGraph := R.titledTemplate (resolved Key.openGraph)
  twitter := R.titledTemplate (resolved Key.twitter)

/-- The metadata object a layer's export denotes once the parent metadata is
known: a resolver function is applied to the accumulated parent metadata. -/
def exportedOf (R : Resolvers) (resolved : ResolvedMetadata) :
    MetadataExport → Metadata
  | .plain m => m
  | .resolver f => f resolved

/-- The body of one iteration of the loop in `accumulateMetadata`:
`exportedMetadata || staticFilesMetadata`, and when that is non-null,
`merge(resolved, \x7b ...metadata, ...staticFilesMetadata \x7d, templates)`.
Spreading `null` static-files metadata is a no-op, modelled by `getD []`. -/
def applyLayer (R : Resolvers) (resolved : ResolvedMetadata)
    (item : MetadataItem) : ResolvedMetadata :=
  let exported : Option Metadata := item.1.map (exportedOf R resolved)
  match exported.orElse fun _ => item.2 with
  | none => resolved
  | some md => merge R resolved (spreadObj md (item.2.getD [])) (templatesOf R resolved)

/-- The loop of `accumulateMetadata`, with the promise chain collapsed to
its (deterministic) sequential execution order: the chained `then`
continuation of layer `i` runs only after layers `0..i-1` have merged, and a
layer's resolver, handed `parentPromise`, observes exactly the metadata
accumulated from the earlier layers before its own merge runs. -/
def accumulateGo (R : Resolvers) (resolved : ResolvedMetadata) :
    List MetadataItem → ResolvedMetadata
  | [] => resolved
  | item :: rest => accumulateGo R (applyLayer R resolved item) rest

/-- `accumulateMetadata(metadataItems)` starting from
`createDefaultMetadata()`. -/
def accumulateMetadata (R : Resolvers) (items : List MetadataItem) :
    ResolvedMetadata :=
  accumulateGo R R.createDefaultMetadata items

/-- The module argument of `getDefinedMetadata`, keeping only what the
function inspects: the client-reference flag, the truthiness-bearing
`metadata` and `generateMetadata` exports, and `path` for the error text. -/
structure JsModule where
  isClientReference : Bool
  metadata : JSVal
  generateMetadata : JSVal
  path : String

/-- Result of `getDefinedMetadata`: `null`, the static metadata export, or
the closure `(parent) => mod.generateMetadata(props, parent)`. -/
inductive DefinedMetadata where
  | staticMeta (v : JSVal)
  | generated (g : JSVal) (props : JSVal)
deriving DecidableEq, Repr

/-- `getDefinedMetadata(mod, props)`; a thrown `Error` is `Except.error`
carrying the message. -/
def getDefinedMetadata (mod : JsModule) (props : JSVal) :
    Except String (Option DefinedMetadata) :=
  if mod.isClientReference then
    Except.ok none
  else if truthy mod.metadata && truthy mod.generateMetadata then
    Except.error
      (mod.path ++ " is exporting both metadata and generateMetadata which is not supported. If all of the metadata you want to associate to this page/layout is static use the metadata export, otherwise use generateMetadata. File: " ++ mod.path)
  else
    Except.ok
      (if truthy mod.generateMetadata then
        some (DefinedMetadata.generated mod.generateMetadata props)
      else if truthy mod.metadata then
        some (DefinedMetadata.staticMeta mod.metadata)
      else none)

end ResolveMetadata

namespace RouterState

/-- `CacheStates` from `shared/lib/app-router-context` (an external import);
only `READY` is used by the factory here. -/
inductive CacheStates where
  | lazyInitialized
  | dataFetch
  | ready
deriving DecidableEq, Repr

/-- A `CacheNode`, keeping the four fields the factory writes.  JavaScript
`Map`s are modelled by association lists, `new Map()` being `[]`.  `Data` is
the element type of the `data` promise, `Node` the React subtree type, `P`
the type of a child segment map. -/
structure CacheNode (Data Node P : Type) where
  status : CacheStates
  data : Option Data
  subTreeData : Node
  parallelRoutes : List (String × P)

/-- The named parameters of `createInitialRouterState`. -/
structure InitialRouterStateParameters (Tree Node P Loc : Type) where
  initialTree : Tree
  initialCanonicalUrl : String
  children : Node
  initialParallelRoutes : List (String × P)
  isServer : Bool
  location : Option Loc

/-- The `pushRef` component of the returned state. -/
structure PushRef where
  pendingPush : Bool
  mpaNavigation : Bool
deriving DecidableEq, Repr

/-- The `focusAndScrollRef` component of the returned state. -/
structure FocusAndScrollRef where
  apply : Bool
deriving DecidableEq, Repr

/-- The object literal returned by `createInitialRouterState`; `PF` is the
value type of the prefetch cache map. -/
structure AppRouterState (Tree Node Data P PF : Type) where
  tree : Tree
  cache : CacheNode Data Node P
  prefetchCache : List (String × PF)
  pushRef : PushRef
  focusAndScrollRef : FocusAndScrollRef
  canonicalUrl : String

/-- `createInitialRouterState`; `createHrefFromUrl` is imported from a file
outside this excerpt and passed as a parameter. -/
def createInitialRouterState {Tree Node Data P PF Loc : Type}
    (createHrefFromUrl : Loc → String)
    (p : InitialRouterStateParameters Tree Node P Loc) :
    AppRouterState Tree Node Data P PF where
  tree := p.initialTree
  cache :=
    { status := CacheStates.ready
      data := none
      subTreeData := p.children
      parallelRoutes := if p.isServer then [] else p.initialParallelRoutes }
  prefetchCache := []
  pushRef := { pendingPush := false, mpaNavigation := false }
  focusAndScrollRef := { apply := false }
  canonicalUrl :=
    match p.location with
    | some loc => createHrefFromUrl loc
    | none => p.initialCanonicalUrl

end RouterState

namespace Diagnostics

/-- A `DiagnosticMessageChain`: `messageText`, `code` and the optional
`next` array of nested chains. -/
inductive Chain where
  | mk (messageText : String) (code : Int) (next : Option (List Chain))

/-- The `messageText` field of a chain. -/
def Chain.messageText : Chain → String
  | .mk m _ _ => m

/-- The `code` field of a chain. -/
def Chain.code : Chain → Int
  | .mk _ c _ => c

/-- The `next` field of a chain. -/
def Chain.next : Chain → Option (List Chain)
  | .mk _ _ n => n

/-- `diagnostic.messageText`: `string | DiagnosticMessageChain`. -/
inductive MessageText where
  | str (s : String)
  | chain (c : Chain)

/-- The parts of a `ts.SourceFile` the formatter reads.  The method call
`file.getLineAndCharacterOfPosition(diagnostic.start!)` is modelled by the
function field `lineAndCharOf`, handed the possibly-undefined `start`
unchanged (the `!` is only a type-level assertion);
`file.getFullText(file.getSourceFile())` is the `fullText` field. -/
structure SourceFile where
  fileName : String
  text : String
  fullText : String
  lineAndCharOf : Option Nat → Nat × Nat

/-- A `ts.Diagnostic` restricted to the fields the formatter reads.
`category` is the numeric `DiagnosticCategory` value. -/
structure Diagnostic where
  code : Int
  category : Int
  messageText : MessageText
  file : Option SourceFile
  start : Option Nat

/-- External collaborators of the formatter, imported from outside the
excerpt: the `chalk` styling functions, `ts.flattenDiagnosticMessageText`
(already applied with the `'\n'` separator), the `path` module and
`codeFrameColumns` (applied to the full text and the 1-based line/column).
All are abstracted as parameters. -/
structure Ext where
  bold : String → String
  cyan : String → String
  yellow : String → String
  redBold : String → String
  yellowBold : String → String
  cyanBold : String → String
  flattenDiagnosticMessageText : MessageText → String
  pathRelative : String → String → String
  pathJoin3 : String → String → String → String
  posixNormalize : String → String
  codeFrameColumns : String → Nat → Nat → String

/-- Characters matched by `.` in a JavaScript regex without the `s` flag
(newlines excluded; the rare ` `/` ` cases are ignored). -/
def notNL (c : Char) : Bool := !(c = '\n' || c = '\r')

/-- Greedy matching of `(.+)` followed by the literal `mid`, trying capture
lengths from `k` down to `1` as a backtracking JavaScript engine does. -/
def grabGreedy (mid s : List Char) : Nat → Option (List Char)
  | 0 => none
  | k + 1 =>
    if mid.isPrefixOf (s.drop (k + 1)) then some (s.take (k + 1))
    else grabGreedy mid s k

/-- The quoted-href alternative of a link regex at the current position:
the literal `pre`, a greedy `(.+)` capture, then the literal `mid`. -/
def linkBranchA (pre mid s : List Char) : Option (List Char) :=
  if pre.isPrefixOf s then
    grabGreedy mid (s.drop pre.length) (((s.drop pre.length).takeWhile notNL).length)
  else none

/-- `message.match(re)` for a link regex `preA(.+)midA|alt`: leftmost match,
with the capturing alternative preferred at equal positions.  `some (some h)`
is a match with captured href `h`, `some none` a match through the bare
alternative (capture group `undefined`), `none` no match. -/
def linkRegexMatch (pre mid alt : List Char) : List Char → Option (Option (List Char))
  | [] =>
    match linkBranchA pre mid [] with
    | some h => some (some h)
    | none => if alt.isPrefixOf ([] : List Char) then some none else none
  | s@(_ :: rest) =>
    match linkBranchA pre mid s with
    | some h => some (some h)
    | none =>
      if alt.isPrefixOf s then some none else linkRegexMatch pre mid alt rest

/-- Literal pieces of the two link regexes.  In
`/Type '"(.+)"' is not assignable to type 'Route<string> | URL'\./` the
unescaped `|` is regex alternation, so the pattern is
`Type '"(.+)"' is not assignable to type 'Route<string> ` (note the
trailing space) or the bare ` URL'.` — and symmetrically for the second
regex. -/
def linkPre : List Char := ("Type '\"").toList

/-- First alternative's tail of the first link regex. -/
def linkMid1 : List Char :=
  ("\"' is not assignable to type 'Route<string> ").toList

/-- Bare second alternative of the first link regex. -/
def linkAlt1 : List Char := (" URL'.").toList

/-- First alternative's tail of the second link regex. -/
def linkMid2 : List Char := ("\"' is not assignable to type 'URL ").toList

/-- Bare second alternative of the second link regex. -/
def linkAlt2 : List Char := (" Route<string>'.").toList

/-- `message.match(re1) || message.match(re2)`. -/
def linkMatchResult (message : List Char) : Option (Option (List Char)) :=
  (linkRegexMatch linkPre linkMid1 linkAlt1 message).orElse fun _ =>
    linkRegexMatch linkPre linkMid2 linkAlt2 message

/-- `const [, href] = match`: the captured group, or the string the
template literal renders for an `undefined` capture. -/
def hrefOf : Option (List Char) → String
  | some h => String.mk h
  | none => "undefined"

/-- The friendlier message built from the captured href. -/
def linkRouteMessage (E : Ext) (href : String) : String :=
  "\"" ++ E.bold href ++ "\" is not an existing route. If it is intentional, please type it explicitly with `as Route`."

/-- `getFormattedLinkDiagnosticMessageText(diagnostic)`. -/
def getFormattedLinkDiagnosticMessageText (E : Ext) (d : Diagnostic) :
    Option String :=
  match d.messageText with
  | .str message =>
    if d.code = 2322 then
      (linkMatchResult message.toList).map fun capt => linkRouteMessage E (hrefOf capt)
    else none
  | .chain _ => none

/-- A token of the simple regexes used by the layout/page formatter: a
literal, a greedy capturing `(.+)`, a greedy non-capturing `.+`, or a
single `.`. -/
inductive RTok where
  | lit (cs : List Char)
  | cap
  | anyPlus
  | anyOne

/-- Match a token list at the start of `s`, returning the captures in
order.  Greedy pieces try the longest newline-free span first and
backtrack, as a JavaScript engine does. -/
def reMatch : List RTok → List Char → Option (List (List Char))
  | [], _ => some []
  | .lit l :: ts, s =>
    if l.isPrefixOf s then reMatch ts (s.drop l.length) else none
  | .anyOne :: ts, s =>
    match s with
    | [] => none
    | c :: rest => if notNL c then reMatch ts rest else none
  | .cap :: ts, s =>
    (List.range ((s.takeWhile notNL).length)).findSome? fun j =>
      (reMatch ts (s.drop ((s.takeWhile notNL).length - j))).map fun caps =>
        s.take ((s.takeWhile notNL).length - j) :: caps
  | .anyPlus :: ts, s =>
    (List.range ((s.takeWhile notNL).length)).findSome? fun j =>
      reMatch ts (s.drop ((s.takeWhile notNL).length - j))

/-- `message.match(re)` / `re.test(message)`: try the pattern at each
position from the left. -/
def reSearch (p : List RTok) : List Char → Option (List (List Char))
  | [] => reMatch p []
  | s@(_ :: rest) => (reMatch p s).orElse fun _ => reSearch p rest

/-- `/'typeof import\(".+page"\)'/`, deciding between `Page` and
`Layout`. -/
def pageImportPat : List RTok :=
  [.lit (("'typeof import(\"").toList), .anyPlus, .lit (("page\")'").toList)]

/-- `/'typeof import\("(.+)"\)'.+'(.+)'/` (code 2344; only tested). -/
def importTypePat : List RTok :=
  [.lit (("'typeof import(\"").toList), .cap, .lit (("\")'").toList),
   .anyPlus, .lit (("'").toList), .cap, .lit (("'").toList)]

/-- `/'typeof import\("(.+)"\)'.+Impossible<"(.+)">/` (code 2345). -/
def impossiblePat : List RTok :=
  [.lit (("'typeof import(\"").toList), .cap, .lit (("\")'").toList),
   .anyPlus, .lit (("Impossible<\"").toList), .cap, .lit (("\">").toList)]

/-- `/The types of '(.+)'/` (code 2200). -/
def typesOfPat : List RTok :=
  [.lit (("The types of '").toList), .cap, .lit (("'").toList)]

/-- `/Type '(.+)' is not assignable to type '(.+)'./` (code 2322); the
trailing unescaped `.` matches any non-newline character. -/
def assignPat : List RTok :=
  [.lit (("Type '").toList), .cap,
   .lit (("' is not assignable to type '").toList), .cap,
   .lit (("'").toList), .anyOne]

/-- `/Type '(.+)' is missing the following properties from type '(.+)'/`
(code 2739). -/
def missingPropsPat : List RTok :=
  [.lit (("Type '").toList), .cap,
   .lit (("' is missing the following properties from type '").toList),
   .cap, .lit (("'").toList)]

/-- `/Type '(.+)' has/` (code 2559). -/
def typeHasPat : List RTok :=
  [.lit (("Type '").toList), .cap, .lit (("' has").toList)]

/-- `/Property '(.+)' is missing in type 'PageProps'/` (code 2741). -/
def pagePropsPat : List RTok :=
  [.lit (("Property '").toList), .cap,
   .lit (("' is missing in type 'PageProps'").toList)]

/-- `/Property '(.+)' is missing in type 'LayoutProps' but required in type '(.+)'/`
(code 2741, second try). -/
def layoutPropsPat : List RTok :=
  [.lit (("Property '").toList), .cap,
   .lit (("' is missing in type 'LayoutProps' but required in type '").toList),
   .cap, .lit (("'").toList)]

/-- JavaScript `String.prototype.replace` with a string pattern: replace
the first occurrence only. -/
def replaceFirst (pat repl : List Char) : List Char → List Char
  | [] => []
  | s@(c :: rest) =>
    if pat.isPrefixOf s then repl ++ s.drop pat.length
    else c :: replaceFirst pat repl rest

/-- `' '.repeat(n)` as used for the per-level indentation. -/
def indentSpaces (n : Nat) : String := String.mk (List.replicate n ' ')

/-- The text one `processNext` item appends to `main`, from the item's
`messageText` and `code` (the `switch (item.code)`). -/
def itemTextCore (E : Ext) (ty : String) (indent : Nat) (m : String)
    (code : Int) : String :=
  match code with
  | 2200 =>
    match reSearch typesOfPat m.toList with
    | some (f :: _) =>
      "\n" ++ indentSpaces (indent * 2) ++ "\"" ++ E.bold (String.mk f)
        ++ "\" has the wrong type:"
    | _ => ""
  | 2322 =>
    match reSearch assignPat m.toList with
    | some [t1, t2] =>
      "\n" ++ indentSpaces (indent * 2) ++
        (if String.mk t2 = "PageComponent" ∨ String.mk t2 = "LayoutComponent" then
          "The exported " ++ ty ++ " component isn't correctly typed."
        else
          "Expected \"" ++
            E.bold (String.mk (replaceFirst
              (("\"__invalid_negative_number__\"").toList)
              (("number (>= 0)").toList) t2)) ++
            "\", got \"" ++ E.bold (String.mk t1) ++ "\".")
    | _ => ""
  | 2326 => "\n" ++ indentSpaces (indent * 2) ++ "Invalid configuration:"
  | 2739 =>
    match reSearch missingPropsPat m.toList with
    | some [p1, p2] =>
      if String.mk p1 = "LayoutProps" ∨ String.mk p1 = "PageProps" then
        "\n" ++ indentSpaces (indent * 2) ++ "Prop \"" ++ String.mk p2
          ++ "\" is incompatible with the " ++ ty ++ "."
      else ""
    | _ => ""
  | 2559 =>
    match reSearch typeHasPat m.toList with
    | some (t :: _) =>
      "\n" ++ indentSpaces (indent * 2) ++ "Type \"" ++ E.bold (String.mk t)
        ++ "\" isn't allowed."
    | _ => ""
  | 2741 =>
    match reSearch pagePropsPat m.toList with
    | some (p :: _) =>
      "\n" ++ indentSpaces (indent * 2) ++ "Prop \"" ++ E.bold (String.mk p)
        ++ "\" will never be passed. Remove it from the component's props."
    | _ =>
      match reSearch layoutPropsPat m.toList with
      | some (p :: _) =>
        "\n" ++ indentSpaces (indent * 2) ++ "Prop \"" ++ E.bold (String.mk p)
          ++ "\" is not valid for this Layout, remove it to fix."
      | _ => ""
  | _ => ""

/-- `processNext(indent, next)`: each item appends its own text and then
the text of its nested chains at `indent + 1`, in order. -/
def processNextItems (E : Ext) (ty : String) (indent : Nat) :
    List Chain → String
  | [] => ""
  | Chain.mk m code next :: cs =>
    itemTextCore E ty indent m code ++
      (match next with
       | none => ""
       | some l => processNextItems E ty (indent + 1) l) ++
      processNextItems E ty indent cs

/-- The anchored `/^\/\/ File: (.+)\n/` applied to the trimmed source text:
the text must begin with the literal marker, and the capture is the
remainder of that line, with the terminating newline required. -/
def anchoredFileCapture (s : List Char) : Option (List Char) :=
  if (("// File: ").toList).isPrefixOf s then
    let rest := s.drop (("// File: ").toList).length
    let line := rest.takeWhile notNL
    if line.length > 0 ∧ (rest.drop line.length).head? = some '\n' then
      some line
    else none
  else none

/-- `getFormattedLayoutAndPageDiagnosticMessageText(baseDir, diagnostic)`. -/
def getFormattedLayoutAndPageDiagnosticMessageText (E : Ext) (baseDir : String)
    (d : Diagnostic) : Option String :=
  let sourceFilepath : String :=
    match d.file with
    | some f =>
      match anchoredFileCapture f.text.trim.toList with
      | some cs => String.mk cs
      | none => ""
    | none => ""
  if sourceFilepath = "" then none
  else
    match d.messageText with
    | .str _ => none
    | .chain message =>
      let relativeSourceFile := E.pathRelative baseDir sourceFilepath
      let ty : String :=
        if (reSearch pageImportPat message.messageText.toList).isSome then "Page"
        else "Layout"
      match message.code with
      | 2344 =>
        if (reSearch importTypePat message.messageText.toList).isSome then
          some ((ty ++ " \"" ++ E.bold relativeSourceFile
              ++ "\" does not match the required types of a Next.js " ++ ty ++ ".") ++
            (match message.next with
             | none => ""
             | some l => processNextItems E ty 1 l))
        else none
      | 2345 =>
        match reSearch impossiblePat message.messageText.toList with
        | some [_, exportName] =>
          some (ty ++ " \"" ++ E.bold relativeSourceFile
            ++ "\" exports an invalid \"" ++ E.bold (String.mk exportName)
            ++ "\" field. " ++ ty
            ++ " should only export a default React component and configuration options. Learn more: https://nextjs.org/docs/messages/invalid-segment-export")
        | _ => none
      | _ => none

/-- `isLayoutOrPageError`: the diagnostic's file lives under
`path.join(baseDir, distDir, 'types')` and the app dir is enabled.  A
missing file makes the optional chain `undefined`, hence falsy. -/
def isLayoutOrPageError (E : Ext) (baseDir distDir : String)
    (isAppDirEnabled : Bool) (d : Diagnostic) : Bool :=
  isAppDirEnabled &&
    (match d.file with
     | some f => f.fileName.startsWith (E.pathJoin3 baseDir distDir ("types"))
     | none => false)

/-- The category prefix appended to `message` by the `switch (category)`. -/
def diagnosticHeader (E : Ext) (category : Int) : String :=
  if category = 0 then E.yellowBold ("Type warning") ++ ": "
  else if category = 1 then E.redBold ("Type error") ++ ": "
  else E.cyanBold (if category = 2 then "Suggestion" else "Info") ++ ": "

/-- `.replace(/\\/g, '/')`. -/
def replaceBackslashes (s : String) : String :=
  String.mk (s.toList.map fun c => if c = '\\' then '/' else c)

/-- The `./`-prefixed normalized relative file name printed in the location
line. -/
def normalizedFileName (E : Ext) (baseDir : String) (f : SourceFile) : String :=
  let fn := E.posixNormalize (replaceBackslashes (E.pathRelative baseDir f.fileName))
  if fn.startsWith (".") then fn else "./" ++ fn

/-- Assembling the returned string from the chosen `reason`: the category
header and reason always, and — for a diagnostic that has a file and is not
a layout/page error — the `fileName:line:character` location line in front
and the code frame behind (line and character are the 0-based position plus
one). -/
def formatDiagnosticMessage (E : Ext) (baseDir : String) (d : Diagnostic)
    (isLP : Bool) (reason : String) : String :=
  let message := diagnosticHeader E d.category ++ reason ++ "\n"
  match d.file with
  | some f =>
    if !isLP then
      E.cyan (normalizedFileName E baseDir f) ++ ":" ++
        E.yellow (toString ((f.lineAndCharOf d.start).1 + 1)) ++ ":" ++
        E.yellow (toString ((f.lineAndCharOf d.start).2 + 1)) ++ "\n" ++
        message ++ "\n" ++
        E.codeFrameColumns f.fullText ((f.lineAndCharOf d.start).1 + 1)
          ((f.lineAndCharOf d.start).2 + 1)
    else message
  | none => message

/-- The `reason` selected by `getFormattedDiagnostic`:
`linkReason || layoutReason || ts.flattenDiagnosticMessageText(...)`, the
layout reason being computed only when no link reason was found and the
diagnostic is a layout/page error.  Both rewrite functions produce nonempty
(truthy) strings whenever they produce anything, so `||` is `Option.getD`
here. -/
def reasonOf (E : Ext) (baseDir distDir : String) (isAppDirEnabled : Bool)
    (d : Diagnostic) : String :=
  let linkReason := getFormattedLinkDiagnosticMessageText E d
  let layoutReason :=
    if linkReason.isNone && isLayoutOrPageError E baseDir distDir isAppDirEnabled d then
      getFormattedLayoutAndPageDiagnosticMessageText E baseDir d
    else none
  ((linkReason.orElse fun _ => layoutReason).getD
    (E.flattenDiagnosticMessageText d.messageText))

/-- `getFormattedDiagnostic(ts, baseDir, distDir, diagnostic,
isAppDirEnabled)`; total, hence never raising. -/
def getFormattedDiagnostic (E : Ext) (baseDir distDir : String)
    (d : Diagnostic) (isAppDirEnabled : Bool) : String :=
  formatDiagnosticMessage E baseDir d
    (isLayoutOrPageError E baseDir distDir isAppDirEnabled d)
    (reasonOf E baseDir distDir isAppDirEnabled d)

/-- A concrete instance of the external collaborators (identity styling,
slash-joined paths, a fixed code frame), used by witnesses and
counterexamples. -/
def idExt : Ext where
  bold := fun s => s
  cyan := fun s => s
  yellow := fun s => s
  redBold := fun s => s
  yellowBold := fun s => s
  cyanBold := fun s => s
  flattenDiagnosticMessageText := fun m =>
    match m with
    | .str s => s
    | .chain c => c.messageText
  pathRelative := fun _ p => p
  pathJoin3 := fun a b c => a ++ "/" ++ b ++ "/" ++ c
  posixNormalize := fun s => s
  codeFrameColumns := fun _ _ _ => "frame"

/-- Existence (without greediness) of a capture of length between `1` and
the newline-free run, followed by the literal `suf`. -/
def capExistsB (suf s : List Char) : Bool :=
  (List.range ((s.takeWhile notNL).length)).any fun j =>
    suf.isPrefixOf (s.drop (j + 1))

/-- Some position of `s` carries the literal `pre`, then a nonempty
newline-free capture, then the literal `suf`. -/
def templateHit (pre suf : List Char) : List Char → Bool
  | [] => false
  | s@(_ :: rest) =>
    (pre.isPrefixOf s && capExistsB suf (s.drop pre.length)) ||
      templateHit pre suf rest

/-- Substring occurrence test. -/
def containsSub (pat : List Char) : List Char → Bool
  | [] => pat.isPrefixOf ([] : List Char)
  | s@(_ :: rest) => pat.isPrefixOf s || containsSub pat rest

/-- `grabGreedy` finds a capture exactly when some admissible capture
length works. -/
theorem grabGreedy_isSome (mid s : List Char) :
    ∀ k, ((grabGreedy mid s k).isSome = true ↔
      ∃ j, j < k ∧ mid.isPrefixOf (s.drop (j + 1)) = true) := by
  intro k
  induction k with
  | zero => simp [grabGreedy]
  | succ k ih =>
    rw [grabGreedy]
    cases h : mid.isPrefixOf (s.drop (k + 1))
    · simp only [Bool.false_eq_true, if_false]
      rw [ih]
      constructor
      · rintro ⟨j, hj, hp⟩
        exact ⟨j, Nat.lt_succ_of_lt hj, hp⟩
      · rintro ⟨j, hj, hp⟩
        rcases Nat.lt_succ_iff_lt_or_eq.mp hj with hj' | rfl
        · exact ⟨j, hj', hp⟩
        · rw [hp] at h
          cases h
    · simp only [if_true]
      simp only [Option.isSome_some, true_iff]
      exact ⟨k, Nat.lt_succ_self k, h⟩

/-- The capturing alternative matches at a position exactly when the
position-level template test accepts. -/
theorem linkBranchA_isSome (pre mid s : List Char) :
    (linkBranchA pre mid s).isSome = true ↔
      (pre.isPrefixOf s = true ∧ capExistsB mid (s.drop pre.length) = true) := by
  unfold linkBranchA
  cases h : pre.isPrefixOf s
  · simp [h]
  · simp only [if_true, h, true_and]
    rw [grabGreedy_isSome]
    unfold capExistsB
    rw [List.any_eq_true]
    constructor
    · rintro ⟨j, hj, hp⟩
      exact ⟨j, List.mem_range.mpr hj, hp⟩
    · rintro ⟨j, hj, hp⟩
      exact ⟨j, List.mem_range.mp hj, hp⟩

/-- The full search of one link regex succeeds exactly when either its
capturing template occurs or its bare alternative occurs as a substring. -/
theorem linkRegexMatch_isSome (pre mid alt : List Char) :
    ∀ s, ((linkRegexMatch pre mid alt s).isSome = true ↔
      (templateHit pre mid s || containsSub alt s) = true) := by
  intro s
  induction s with
  | nil =>
    have hA : linkBranchA pre mid [] = none := by
      unfold linkBranchA
      cases h : pre.isPrefixOf ([] : List Char)
      · simp
      · simp [grabGreedy]
    rw [linkRegexMatch, hA]
    unfold templateHit containsSub
    cases h : alt.isPrefixOf ([] : List Char)
    · simp
    · simp
  | cons c rest ih =>
    rw [linkRegexMatch]
    cases hA : linkBranchA pre mid (c :: rest) with
    | some h' =>
      have hab : (pre.isPrefixOf (c :: rest) &&
          capExistsB mid ((c :: rest).drop pre.length)) = true := by
        have := (linkBranchA_isSome pre mid (c :: rest)).mp (by rw [hA]; rfl)
        simp [this.1, this.2]
      rw [templateHit, hab]
      simp
    | none =>
      have hab : (pre.isPrefixOf (c :: rest) &&
          capExistsB mid ((c :: rest).drop pre.length)) = false := by
        cases hval : (pre.isPrefixOf (c :: rest) &&
            capExistsB mid ((c :: rest).drop pre.length))
        · rfl
        · have := (linkBranchA_isSome pre mid (c :: rest)).mpr
            ⟨(Bool.and_eq_true _ _ |>.mp hval).1, (Bool.and_eq_true _ _ |>.mp hval).2⟩
          rw [hA] at this
          cases this
      rw [templateHit, hab]
      cases hAl : alt.isPrefixOf (c :: rest)
      · rw [containsSub, hAl]
        simpa using ih
      · rw [containsSub, hAl]
        simp

/-- C6 (amended): the link rewrite fires exactly for code 2322, a string
message, and a message that either carries the quoted-href template of one
of the two regexes (the pattern up to the unescaped `|`) or merely contains
the bare right alternative ` URL'.` / ` Route<string>'.`; every produced
message has the fixed "is not an existing route" shape around some href
text. -/
theorem link_rewrite_characterization (E : Ext) (d : Diagnostic) :
    (getFormattedLinkDiagnosticMessageText E d ≠ none ↔
      (d.code = 2322 ∧ ∃ s, d.messageText = MessageText.str s ∧
        (templateHit linkPre linkMid1 s.toList || containsSub linkAlt1 s.toList ||
          (templateHit linkPre linkMid2 s.toList ||
            containsSub linkAlt2 s.toList)) = true)) ∧
    ∀ r, getFormattedLinkDiagnosticMessageText E d = some r →
      ∃ href, r = linkRouteMessage E href := by
  obtain ⟨code, cat, mt, file, start⟩ := d
  constructor
  · cases mt with
    | chain c => simp [getFormattedLinkDiagnosticMessageText]
    | str s =>
      simp only [getFormattedLinkDiagnosticMessageText]
      by_cases hc : code = 2322
      · rw [if_pos hc]
        have horelse : (linkMatchResult s.toList).isSome =
            ((linkRegexMatch linkPre linkMid1 linkAlt1 s.toList).isSome ||
              (linkRegexMatch linkPre linkMid2 linkAlt2 s.toList).isSome) := by
          unfold linkMatchResult
          cases linkRegexMatch linkPre linkMid1 linkAlt1 s.toList
          · rfl
          · rfl
        constructor
        · intro hne
          have hs : (linkMatchResult s.toList).isSome = true := by
            cases hval : linkMatchResult s.toList
            · rw [hval] at hne
              simp at hne
            · rfl
          rw [horelse] at hs
          rcases Bool.or_eq_true _ _ |>.mp hs with h1 | h2
          · exact ⟨hc, s, rfl, by
              rw [(linkRegexMatch_isSome linkPre linkMid1 linkAlt1 s.toList).mp h1]
              rfl⟩
          · exact ⟨hc, s, rfl, by
              rw [(linkRegexMatch_isSome linkPre linkMid2 linkAlt2 s.toList).mp h2]
              simp⟩
        · rintro ⟨-, s', hs', hb⟩
          have hss : s' = s := by
            injection hs' with hinj
            exact hinj.symm
          subst hss
          have hs : (linkMatchResult s'.toList).isSome = true := by
            rw [horelse]
            rcases Bool.or_eq_true _ _ |>.mp hb with h1 | h2
            · rw [(linkRegexMatch_isSome linkPre linkMid1 linkAlt1 s'.toList).mpr h1]
              rfl
            · rw [(linkRegexMatch_isSome linkPre linkMid2 linkAlt2 s'.toList).mpr h2]
              simp
          cases hval : linkMatchResult s'.toList
          · rw [hval] at hs
            cases hs
          · simp
      · rw [if_neg hc]
        simp [hc]
  · intro r h
    cases mt with
    | chain c => simp [getFormattedLinkDiagnosticMessageText] at h
    | str s =>
      simp only [getFormattedLinkDiagnosticMessageText] at h
      by_cases hc : code = 2322
      · rw [if_pos hc] at h
        rcases Option.map_eq_some'.mp h with ⟨capt, -, hr⟩
        exact ⟨hrefOf capt, hr.symm⟩
      · rw [if_neg hc] at h
        cases h

/-- The first link pattern as the claim reads it: literally
`Type '"(...)"' is not assignable to type 'Route<string> | URL'.`. -/
def claimLinkTail1 : List Char :=
  ("\"' is not assignable to type 'Route<string> | URL'.").toList

/-- The second link pattern as the claim reads it. -/
def claimLinkTail2 : List Char :=
  ("\"' is not assignable to type 'URL | Route<string>'.").toList

/-- Follows the claim's words: the message "matches one of the two
patterns" read as literal templates with a captured href between the
quotes. -/
def claimedLinkPatternMatch (s : String) : Bool :=
  templateHit linkPre claimLinkTail1 s.toList ||
    templateHit linkPre claimLinkTail2 s.toList

/-- A 2322 diagnostic whose message mentions the route union type without a
quoted string literal (as TypeScript produces when the assigned value is
not a string literal). -/
def linkBugDiag : Diagnostic where
  code := 2322
  category := 1
  messageText :=
    MessageText.str ("Type 'string' is not assignable to type 'Route<string> | URL'.")
  file := none
  start := none

/-- C6 counterexample: `linkBugDiag`'s message matches neither of the two
patterns as the claim states them, yet the function rewrites it (the
unescaped `|` makes the bare ` URL'.` fragment match), showing an
`undefined` href instead of returning `undefined`. -/
theorem link_rewrite_claim_counterexample :
    claimedLinkPatternMatch
        ("Type 'string' is not assignable to type 'Route<string> | URL'.") = false ∧
      linkBugDiag.code = 2322 ∧
      getFormattedLinkDiagnosticMessageText idExt linkBugDiag
        = some (linkRouteMessage idExt ("undefined")) :=
  ⟨by decide, rfl, rfl⟩

/-- A 2322 diagnostic with a properly quoted unknown route. -/
def linkOkDiag : Diagnostic where
  code := 2322
  category := 1
  messageText :=
    MessageText.str ("Type '\"/typo\"' is not assignable to type 'Route<string> | URL'.")
  file := none
  start := none

/-- Witness for the amended C6: `linkOkDiag` is rewritten (its message
carries the quoted-href template), and the produced message has the fixed
route-error shape. -/
theorem link_rewrite_characterization_witness :
    getFormattedLinkDiagnosticMessageText idExt linkOkDiag ≠ none ∧
      ∃ href, linkRouteMessage idExt ("/typo") = linkRouteMessage idExt href :=
  ⟨(link_rewrite_characterization idExt linkOkDiag).1.mpr
      ⟨rfl, "Type '\"/typo\"' is not assignable to type 'Route<string> | URL'.",
        rfl, by decide⟩,
    (link_rewrite_characterization idExt linkOkDiag).2
      (linkRouteMessage idExt ("/typo")) rfl⟩

/-- C5: when neither the link rewrite nor the layout/page rewrite produces
a message, `getFormattedDiagnostic` silently falls back to the default
formatting, whose reason is `ts.flattenDiagnosticMessageText` applied to the
diagnostic's `messageText`; the function is total, so no error is raised. -/
theorem diagnostic_default_fallback (E : Ext) (baseDir distDir : String)
    (app : Bool) (d : Diagnostic)
    (h1 : getFormattedLinkDiagnosticMessageText E d = none)
    (h2 : getFormattedLayoutAndPageDiagnosticMessageText E baseDir d = none) :
    getFormattedDiagnostic E baseDir distDir d app =
      formatDiagnosticMessage E baseDir d
        (isLayoutOrPageError E baseDir distDir app d)
        (E.flattenDiagnosticMessageText d.messageText) := by
  unfold getFormattedDiagnostic
  congr 1
  unfold reasonOf
  rw [h1]
  cases hLP : isLayoutOrPageError E baseDir distDir app d
  · simp [Option.orElse]
  · simp [h2, Option.orElse]

/-- A diagnostic with a non-special code, a plain string message and no
source file. -/
def plainDiag : Diagnostic where
  code := 100
  category := 1
  messageText := MessageText.str ("hello")
  file := none
  start := none

/-- Witness for C5: `plainDiag` triggers neither rewrite, and the formatted
output uses the flattened message text as its reason. -/
theorem diagnostic_default_fallback_witness :
    getFormattedDiagnostic idExt ("base") ("dist") plainDiag false =
      formatDiagnosticMessage idExt ("base") plainDiag
        (isLayoutOrPageError idExt ("base") ("dist") false plainDiag)
        (idExt.flattenDiagnosticMessageText plainDiag.messageText) :=
  diagnostic_default_fallback idExt "base" "dist" false plainDiag rfl rfl

/-- C7: a diagnostic that carries a source file and is not classified as a
layout/page error is formatted with the (1-based) `fileName:line:character`
location line in front and the code-frame excerpt at the end; a layout/page
error or a file-less diagnostic gets the bare category header, reason and
newline with neither addition. -/
theorem diagnostic_location_and_codeframe (E : Ext) (baseDir distDir : String)
    (app : Bool) (d : Diagnostic) :
    (∀ f, d.file = some f →
      isLayoutOrPageError E baseDir distDir app d = false →
      (∃ rest, getFormattedDiagnostic E baseDir distDir d app =
        E.cyan (normalizedFileName E baseDir f) ++ ":" ++
          E.yellow (toString ((f.lineAndCharOf d.start).1 + 1)) ++ ":" ++
          E.yellow (toString ((f.lineAndCharOf d.start).2 + 1)) ++ "\n" ++ rest) ∧
      (∃ init, getFormattedDiagnostic E baseDir distDir d app =
        init ++ ("\n" ++ E.codeFrameColumns f.fullText
          ((f.lineAndCharOf d.start).1 + 1) ((f.lineAndCharOf d.start).2 + 1)))) ∧
    ((isLayoutOrPageError E baseDir distDir app d = true ∨ d.file = none) →
      getFormattedDiagnostic E baseDir distDir d app =
        diagnosticHeader E d.category ++ reasonOf E baseDir distDir app d ++ "\n") := by
  constructor
  · intro f hf hLP
    have hmain : getFormattedDiagnostic E baseDir distDir d app =
        E.cyan (normalizedFileName E baseDir f) ++ ":" ++
          E.yellow (toString ((f.lineAndCharOf d.start).1 + 1)) ++ ":" ++
          E.yellow (toString ((f.lineAndCharOf d.start).2 + 1)) ++ "\n" ++
          (diagnosticHeader E d.category ++ reasonOf E baseDir distDir app d
            ++ "\n") ++ "\n" ++
          E.codeFrameColumns f.fullText ((f.lineAndCharOf d.start).1 + 1)
            ((f.lineAndCharOf d.start).2 + 1) := by
      unfold getFormattedDiagnostic formatDiagnosticMessage
      rw [hLP, hf]
      rfl
    constructor
    · refine ⟨(diagnosticHeader E d.category ++ reasonOf E baseDir distDir app d
          ++ "\n") ++ "\n" ++
          E.codeFrameColumns f.fullText ((f.lineAndCharOf d.start).1 + 1)
            ((f.lineAndCharOf d.start).2 + 1), ?_⟩
      rw [hmain]
      simp only [String.append_assoc]
    · refine ⟨E.cyan (normalizedFileName E baseDir f) ++ ":" ++
          E.yellow (toString ((f.lineAndCharOf d.start).1 + 1)) ++ ":" ++
          E.yellow (toString ((f.lineAndCharOf d.start).2 + 1)) ++ "\n" ++
          (diagnosticHeader E d.category ++ reasonOf E baseDir distDir app d
            ++ "\n"), ?_⟩
      rw [hmain]
      simp only [String.append_assoc]
  · intro h
    rcases h with hLP | hf
    · unfold getFormattedDiagnostic formatDiagnosticMessage
      rw [hLP]
      cases hfile : d.file
      · rfl
      · simp
    · unfold getFormattedDiagnostic formatDiagnosticMessage
      rw [hf]

/-- A source file for the C7 witness. -/
def fileW : SourceFile where
  fileName := "src/pages/a.ts"
  text := ""
  fullText := "full text"
  lineAndCharOf := fun _ => (2, 3)

/-- A file-carrying diagnostic outside the types directory, for the C7
witness. -/
def diagW : Diagnostic where
  code := 100
  category := 1
  messageText := MessageText.str ("boom")
  file := some fileW
  start := some 5

/-- Witness for C7: `diagW` (a file, not a layout/page error) starts with
the location prefix, and the file-less `plainDiag` is the bare message. -/
theorem diagnostic_location_and_codeframe_witness :
    (∃ rest, getFormattedDiagnostic idExt ("base") ("dist") diagW false =
      idExt.cyan (normalizedFileName idExt ("base") fileW) ++ ":" ++
        idExt.yellow (toString ((fileW.lineAndCharOf diagW.start).1 + 1)) ++ ":" ++
        idExt.yellow (toString ((fileW.lineAndCharOf diagW.start).2 + 1)) ++ "\n"
        ++ rest) ∧
    getFormattedDiagnostic idExt ("base") ("dist") plainDiag false =
      diagnosticHeader idExt plainDiag.category ++
        reasonOf idExt ("base") ("dist") false plainDiag ++ "\n" :=
  ⟨((diagnostic_location_and_codeframe idExt "base" "dist" false diagW).1
      fileW rfl rfl).1,
    (diagnostic_location_and_codeframe idExt "base" "dist" false plainDiag).2
      (Or.inr rfl)⟩

end Diagnostics

namespace ResolveMetadata

/-- C9: for every client-reference module, `getDefinedMetadata` returns
`null` without throwing, even when the module exports both `metadata` and
`generateMetadata`; the `isClientReference` early return precedes the
both-exports check. -/
theorem getDefinedMetadata_clientReference_returns_null (mod : JsModule)
    (props : JSVal) (h : mod.isClientReference = true) :
    getDefinedMetadata mod props = Except.ok none := by
  unfold getDefinedMetadata
  rw [h]
  rfl

/-- A client-reference module that exports both `metadata` and
`generateMetadata` (both truthy). -/
def clientRefMod : JsModule where
  isClientReference := true
  metadata := JSVal.vobj 0
  generateMetadata := JSVal.vobj 1
  path := "app/layout"

/-- Witness for C9: a concrete client-reference module carrying both exports
still yields `Except.ok none`. -/
theorem getDefinedMetadata_clientReference_returns_null_witness :
    truthy clientRefMod.metadata = true ∧
      truthy clientRefMod.generateMetadata = true ∧
      getDefinedMetadata clientRefMod (JSVal.vobj 2) = Except.ok none :=
  ⟨by decide, by decide,
    getDefinedMetadata_clientReference_returns_null clientRefMod (JSVal.vobj 2) rfl⟩

/-- C1 counterexample: the claim "if the module exports both a static
`metadata` field and a `generateMetadata` function, the call throws" fails
for client-reference modules: `clientRefMod` exports both (both truthy), yet
the call returns `Except.ok none` instead of throwing. -/
theorem getDefinedMetadata_both_exports_no_throw_on_client_reference :
    truthy clientRefMod.metadata = true ∧
      truthy clientRefMod.generateMetadata = true ∧
      getDefinedMetadata clientRefMod (JSVal.vobj 2) = Except.ok none :=
  ⟨by decide, by decide, rfl⟩

/-- C1 (amended): for every module that is not a client reference, exporting
both truthy `metadata` and `generateMetadata` makes `getDefinedMetadata`
throw; and any module that does not carry both (truthy) exports never makes
it throw, client reference or not. -/
theorem getDefinedMetadata_both_exports_throws (mod : JsModule) (props : JSVal) :
    (mod.isClientReference = false → truthy mod.metadata = true →
      truthy mod.generateMetadata = true →
      ∃ e, getDefinedMetadata mod props = Except.error e) ∧
    (¬(truthy mod.metadata = true ∧ truthy mod.generateMetadata = true) →
      ∀ e, getDefinedMetadata mod props ≠ Except.error e) := by
  constructor
  · intro hc hm hg
    simp [getDefinedMetadata, hc, hm, hg]
  · intro hnot e
    unfold getDefinedMetadata
    by_cases hc : mod.isClientReference
    · simp [hc]
    · have hmg : (truthy mod.metadata && truthy mod.generateMetadata) = false := by
        cases hm : truthy mod.metadata with
        | false => simp [hm]
        | true =>
          cases hg : truthy mod.generateMetadata with
          | false => simp [hg]
          | true => exact absurd ⟨hm, hg⟩ hnot
      simp [hc, hmg]

/-- A server module exporting both `metadata` and `generateMetadata`. -/
def bothExportsMod : JsModule where
  isClientReference := false
  metadata := JSVal.vobj 3
  generateMetadata := JSVal.vobj 4
  path := "app/page"

/-- A server module exporting only static `metadata`. -/
def staticOnlyMod : JsModule where
  isClientReference := false
  metadata := JSVal.vobj 5
  generateMetadata := JSVal.vundef
  path := "app/page"

/-- Witness for the amended C1: the both-exports server module throws, the
static-only module does not. -/
theorem getDefinedMetadata_both_exports_throws_witness :
    (∃ e, getDefinedMetadata bothExportsMod (JSVal.vobj 6) = Except.error e) ∧
      ∀ e, getDefinedMetadata staticOnlyMod (JSVal.vobj 6) ≠ Except.error e :=
  ⟨(getDefinedMetadata_both_exports_throws bothExportsMod (JSVal.vobj 6)).1
      rfl (by decide) (by decide),
    (getDefinedMetadata_both_exports_throws staticOnlyMod (JSVal.vobj 6)).2
      (by decide)⟩

/-- Keys absent from the source are never assigned by the merge loop. -/
theorem foldl_mergeStep_frame (R : Resolvers) (ts : Templates) (mb : JSVal) :
    ∀ (src : Metadata) (acc : ResolvedMetadata) (k : Key),
      k ∉ src.map Prod.fst →
      src.foldl (mergeStep R ts mb) acc k = acc k := by
  intro src
  induction src with
  | nil => intro acc k _; rfl
  | cons e tl ih =>
    intro acc k hk
    have hk1 : k ≠ e.1 := fun h => hk (by simp [h])
    have hk2 : k ∉ tl.map Prod.fst := fun h => hk (by simp [h])
    rw [List.foldl_cons, ih (mergeStep R ts mb acc e) k hk2]
    unfold mergeStep
    simp [hk1]

/-- Keys hitting the switch's `default` arm are never assigned by the merge
loop, even when present in the source. -/
theorem foldl_mergeStep_unknown (R : Resolvers) (ts : Templates) (mb : JSVal) :
    ∀ (src : Metadata) (acc : ResolvedMetadata) (s : String),
      src.foldl (mergeStep R ts mb) acc (Key.unknownKey s) =
        acc (Key.unknownKey s) := by
  intro src
  induction src with
  | nil => intro acc s; rfl
  | cons e tl ih =>
    intro acc s
    rw [List.foldl_cons, ih (mergeStep R ts mb acc e) s]
    unfold mergeStep
    by_cases h : Key.unknownKey s = e.1
    · rw [if_pos h, ← h]
      rfl
    · rw [if_neg h]

/-- C3: `merge` updates the target field by field driven by the source's
keys: any target field whose key is not an enumerable key of the source is
left unchanged, and a key outside the listed known keys (the switch's
`default`) causes no assignment either. -/
theorem merge_frame (R : Resolvers) (target : ResolvedMetadata)
    (source : Metadata) (ts : Templates) :
    (∀ k, k ∉ source.map Prod.fst → merge R target source ts k = target k) ∧
    (∀ s, merge R target source ts (Key.unknownKey s)
        = target (Key.unknownKey s)) :=
  ⟨fun k hk => foldl_mergeStep_frame R ts (metadataBaseOf source) source target k hk,
   fun s => foldl_mergeStep_unknown R ts (metadataBaseOf source) source target s⟩

/-- Concrete instance of the external collaborators, used by witnesses. -/
def trivResolvers : Resolvers where
  createDefaultMetadata := fun _ => JSVal.vnull
  resolveAlternates := fun v _ => v
  resolveOpenGraph := fun v _ => v
  resolveTwitter := fun v _ => v
  resolveVerification := fun v => v
  resolveViewport := fun v => v
  resolveIcons := fun v => v
  resolveAppleWebApp := fun v => v
  resolveAppLinks := fun v => v
  resolveRobots := fun v => v
  resolveAsArrayOrUndefined := fun v => some v
  mergeTitle := fun v _ => v
  mergeTitleOn := fun v _ => v
  objectAssign := fun _ b => b
  titleTemplate := fun _ => none
  titledTemplate := fun _ => none

/-- An all-null target, as `createDefaultMetadata` would produce. -/
def defaultTarget : ResolvedMetadata := fun _ => JSVal.vnull

/-- A one-key source object for the C3 witness. -/
def frameSource : Metadata := [(Key.description, JSVal.vstr "d")]

/-- Witness for C3: `title` is not a key of `frameSource`, so `merge` leaves
the target's `title` untouched. -/
theorem merge_frame_witness :
    Key.title ∉ frameSource.map Prod.fst ∧
      merge trivResolvers defaultTarget frameSource ⟨none, none, none⟩ Key.title
        = defaultTarget Key.title :=
  ⟨by decide,
   (merge_frame trivResolvers defaultTarget frameSource ⟨none, none, none⟩).1
      Key.title (by decide)⟩

/-- `List.lookup` distributes over append, first list winning. -/
theorem lookup_append (k : Key) :
    ∀ A B : Metadata,
      List.lookup k (A ++ B)
        = (List.lookup k A).orElse fun _ => List.lookup k B := by
  intro A B
  induction A with
  | nil => simp [List.lookup]
  | cons e tl ih =>
    obtain ⟨a, v⟩ := e
    rw [List.cons_append, List.lookup_cons, List.lookup_cons]
    cases h : k == a
    · simpa using ih
    · rfl

/-- The first component of a canonical spread entry is the original key. -/
theorem canonEntry_fst (b : Metadata) (e : Key × JSVal) :
    (canonEntry b e).1 = e.1 := by
  unfold canonEntry
  cases List.lookup e.1 b <;> rfl

/-- Looking a key up in the mapped first half of a spread: present keys of
the second object win, keys absent from the first object are not found. -/
theorem lookup_map_canonEntry (st : Metadata) (k : Key) (w : JSVal)
    (hw : List.lookup k st = some w) :
    ∀ m : Metadata,
      List.lookup k (m.map (canonEntry st))
        = if (List.lookup k m).isSome then some w else none := by
  intro m
  induction m with
  | nil => simp [List.lookup]
  | cons e tl ih =>
    obtain ⟨a, v⟩ := e
    rw [List.map_cons]
    cases hlu : List.lookup a st with
    | some u =>
      have hcanon : canonEntry st (a, v) = (a, u) := by unfold canonEntry; rw [hlu]
      rw [hcanon, List.lookup_cons, List.lookup_cons]
      cases hke : k == a
      · simpa using ih
      · have hka : k = a := by simpa using hke
        subst hka
        rw [hlu] at hw
        simpa using hw
    | none =>
      have hcanon : canonEntry st (a, v) = (a, v) := by unfold canonEntry; rw [hlu]
      rw [hcanon, List.lookup_cons, List.lookup_cons]
      cases hke : k == a
      · simpa using ih
      · have hka : k = a := by simpa using hke
        subst hka
        rw [hlu] at hw
        exact absurd hw (by simp)

/-- Filtering out keys of `m` does not disturb the lookup of a key absent
from `m`. -/
theorem lookup_filter_keep (m : Metadata) (k : Key)
    (hk : List.lookup k m = none) :
    ∀ st : Metadata,
      List.lookup k (st.filter fun e => (List.lookup e.1 m).isNone)
        = List.lookup k st := by
  intro st
  induction st with
  | nil => rfl
  | cons e tl ih =>
    obtain ⟨a, v⟩ := e
    rw [List.filter_cons]
    cases hke : k == a
    · cases hp : ((List.lookup a m).isNone : Bool)
      · simpa [hp, List.lookup_cons, hke] using ih
      · simpa [hp, List.lookup_cons, hke] using ih
    · have hka : k = a := by simpa using hke
      subst hka
      have hp : (List.lookup k m).isNone = true := by rw [hk]; rfl
      simp only [hp, if_true]
      rw [List.lookup_cons, List.lookup_cons, hke]

/-- Static keys override: a key present in the second spread argument looks
up to the second argument's value in the spread object. -/
theorem lookup_spreadObj_right (m st : Metadata) (k : Key)
    (h : (List.lookup k st).isSome = true) :
    List.lookup k (spreadObj m st) = List.lookup k st := by
  obtain ⟨w, hw⟩ := Option.isSome_iff_exists.mp h
  unfold spreadObj
  rw [lookup_append, lookup_map_canonEntry st k w hw m]
  cases hm : (List.lookup k m).isSome
  · have hmnone : List.lookup k m = none := by
      cases hval : List.lookup k m
      · rfl
      · rw [hval] at hm; exact absurd hm (by simp)
    simp only [hm, Bool.false_eq_true, if_false, Option.orElse]
    exact lookup_filter_keep m k hmnone st
  · simp only [hm, if_true, Option.orElse]
    exact hw.symm

/-- In an object with pairwise distinct keys, each entry's key looks up to
that entry's value. -/
theorem nodup_lookup_self :
    ∀ st : Metadata, (st.map Prod.fst).Nodup →
      ∀ e ∈ st, List.lookup e.1 st = some e.2 := by
  intro st
  induction st with
  | nil => intro _ e he; exact absurd he (List.not_mem_nil e)
  | cons a tl ih =>
    intro hnd e he
    obtain ⟨a1, a2⟩ := a
    rw [List.map_cons, List.nodup_cons] at hnd
    rcases List.mem_cons.mp he with rfl | hmem
    · rw [List.lookup_cons]
      simp
    · rw [List.lookup_cons]
      have hne : e.1 ≠ a1 := by
        intro hcontra
        have hmm : e.1 ∈ tl.map Prod.fst := List.mem_map_of_mem Prod.fst hmem
        rw [hcontra] at hmm
        exact hnd.1 hmm
      have hbe : (e.1 == a1) = false := by simpa using hne
      rw [hbe]
      exact ih hnd.2 e hmem

/-- Spreading a duplicate-free object over itself is the identity:
`\x7b ...st, ...st \x7d` is `st` again. -/
theorem spreadObj_self (st : Metadata) (h : (st.map Prod.fst).Nodup) :
    spreadObj st st = st := by
  unfold spreadObj
  have hmap : st.map (canonEntry st) = st := by
    have : ∀ e ∈ st, canonEntry st e = e := by
      intro e he
      unfold canonEntry
      rw [nodup_lookup_self st h e he]
    calc st.map (canonEntry st) = st.map id := List.map_congr_left this
      _ = st := List.map_id st
  have hfil : (st.filter fun e => (List.lookup e.1 st).isNone) = [] := by
    rw [List.filter_eq_nil_iff]
    intro e he
    rw [nodup_lookup_self st h e he]
    simp
  rw [hmap, hfil, List.append_nil]

/-- C4: at each layer of `accumulateMetadata`, static-files metadata takes
precedence: with both parts present the object handed to `merge` is the
spread in which static-files fields override same-named exported fields;
with a `null` export the static-files object alone is spread (the identity
on duplicate-free objects); with both parts `null` the layer leaves the
accumulated metadata unchanged. -/
theorem accumulate_staticFiles_precedence (R : Resolvers)
    (resolved : ResolvedMetadata) :
    (∀ ex st, applyLayer R resolved (some ex, some st) =
        merge R resolved (spreadObj (exportedOf R resolved ex) st)
          (templatesOf R resolved)) ∧
    (∀ (m st : Metadata) (k : Key), (List.lookup k st).isSome = true →
        List.lookup k (spreadObj m st) = List.lookup k st) ∧
    (∀ st, applyLayer R resolved (none, some st) =
        merge R resolved (spreadObj st st) (templatesOf R resolved)) ∧
    (∀ st : Metadata, (st.map Prod.fst).Nodup → spreadObj st st = st) ∧
    applyLayer R resolved (none, none) = resolved :=
  ⟨fun _ _ => rfl,
   fun m st k h => lookup_spreadObj_right m st k h,
   fun _ => rfl,
   fun st h => spreadObj_self st h,
   rfl⟩

/-- An exported metadata object whose `icons` field loses to the one from
static files, for the C4 witness. -/
def exportedW : Metadata := [(Key.icons, JSVal.vobj 8), (Key.title, JSVal.vstr "t")]

/-- A static-files metadata object for the C4 witness. -/
def staticW : Metadata := [(Key.icons, JSVal.vobj 9)]

/-- Witness for C4: the static-files `icons` entry wins in the spread, and
spreading the (duplicate-free) static object over itself is the identity. -/
theorem accumulate_staticFiles_precedence_witness :
    (List.lookup Key.icons staticW).isSome = true ∧
      List.lookup Key.icons (spreadObj exportedW staticW)
        = List.lookup Key.icons staticW ∧
      (staticW.map Prod.fst).Nodup ∧ spreadObj staticW staticW = staticW :=
  ⟨by decide,
   (accumulate_staticFiles_precedence trivResolvers defaultTarget).2.1
      exportedW staticW Key.icons (by decide),
   by decide,
   (accumulate_staticFiles_precedence trivResolvers defaultTarget).2.2.2.1
      staticW (by decide)⟩

/-- The accumulation loop is a left fold of `applyLayer`. -/
theorem accumulateGo_eq_foldl (R : Resolvers) :
    ∀ (items : List MetadataItem) (acc : ResolvedMetadata),
      accumulateGo R acc items = items.foldl (applyLayer R) acc := by
  intro items
  induction items with
  | nil => intro acc; rfl
  | cons x tl ih =>
    intro acc
    rw [List.foldl_cons, ← ih (applyLayer R acc x)]
    rfl

/-- A resolver at position `i` observes exactly the metadata accumulated
from the items before it: replacing it by the constant metadata it returns
on that accumulated value does not change the overall result. -/
theorem accumulateGo_resolver_observes (R : Resolvers) :
    ∀ (items : List MetadataItem) (i : Nat) (acc : ResolvedMetadata)
      (f : ResolvedMetadata → Metadata) (st : Option Metadata),
      items[i]? = some (some (MetadataExport.resolver f), st) →
      accumulateGo R acc items =
        accumulateGo R acc (items.set i
          (some (MetadataExport.plain (f (accumulateGo R acc (items.take i)))),
            st)) := by
  intro items
  induction items with
  | nil => intro i acc f st h; simp at h
  | cons x tl ih =>
    intro i acc f st h
    cases i with
    | zero =>
      rw [List.getElem?_cons_zero, Option.some_inj] at h
      subst h
      rfl
    | succ i =>
      rw [List.getElem?_cons_succ] at h
      rw [List.set_cons_succ, List.take_succ_cons]
      exact ih i (applyLayer R acc x) f st h

/-- C2: `accumulateMetadata` processes the items strictly in list order,
parent first: it is the sequential left fold of the per-layer merge over the
items starting from `createDefaultMetadata()`, and an item's resolver
function is handed (a promise settling to) the metadata accumulated from
all earlier items, so replacing it by the plain metadata it returns on that
parent value leaves the result unchanged. -/
theorem accumulateMetadata_sequential (R : Resolvers)
    (items : List MetadataItem) :
    accumulateMetadata R items
        = items.foldl (applyLayer R) R.createDefaultMetadata ∧
    ∀ (i : Nat) (f : ResolvedMetadata → Metadata) (st : Option Metadata),
      items[i]? = some (some (MetadataExport.resolver f), st) →
      accumulateMetadata R items =
        accumulateMetadata R (items.set i
          (some (MetadataExport.plain (f (accumulateMetadata R (items.take i)))),
            st)) :=
  ⟨accumulateGo_eq_foldl R items R.createDefaultMetadata,
   fun i f st h =>
    accumulateGo_resolver_observes R items i R.createDefaultMetadata f st h⟩

/-- A metadata resolver reading the accumulated title, for the C2 witness. -/
def resolverF : ResolvedMetadata → Metadata :=
  fun resolved => [(Key.description, resolved Key.title)]

/-- A two-layer item list whose second layer is a resolver, for the C2
witness. -/
def itemsW : List MetadataItem :=
  [(some (MetadataExport.plain [(Key.title, JSVal.vstr "t")]), none),
   (some (MetadataExport.resolver resolverF), some [(Key.icons, JSVal.vobj 9)])]

/-- Witness for C2: in `itemsW` the layer-1 resolver may be replaced by the
plain metadata it returns on the accumulation of layer 0. -/
theorem accumulateMetadata_sequential_witness :
    accumulateMetadata trivResolvers itemsW =
      accumulateMetadata trivResolvers (itemsW.set 1
        (some (MetadataExport.plain (resolverF
          (accumulateMetadata trivResolvers (itemsW.take 1)))),
          some [(Key.icons, JSVal.vobj 9)])) :=
  (accumulateMetadata_sequential trivResolvers itemsW).2 1 resolverF
    (some [(Key.icons, JSVal.vobj 9)]) rfl

end ResolveMetadata

namespace RouterState

/-- C8: `createInitialRouterState` is a pure factory: the returned object's
`tree` is `initialTree`, `cache.subTreeData` is `children`, `cache.data` is
`null`, `prefetchCache` is an empty map, and `canonicalUrl` is
`createHrefFromUrl(location)` when `location` is non-null and
`initialCanonicalUrl` when it is null. -/
theorem createInitialRouterState_fields {Tree Node Data P PF Loc : Type}
    (createHrefFromUrl : Loc → String)
    (p : InitialRouterStateParameters Tree Node P Loc) :
    (@createInitialRouterState Tree Node Data P PF Loc createHrefFromUrl p).tree
        = p.initialTree ∧
    (@createInitialRouterState Tree Node Data P PF Loc createHrefFromUrl p).cache.subTreeData = p.children ∧
    (@createInitialRouterState Tree Node Data P PF Loc createHrefFromUrl p).cache.data = none ∧
    (@createInitialRouterState Tree Node Data P PF Loc createHrefFromUrl p).prefetchCache = [] ∧
    (∀ loc, p.location = some loc →
      (@createInitialRouterState Tree Node Data P PF Loc createHrefFromUrl p).canonicalUrl = createHrefFromUrl loc) ∧
    (p.location = none →
      (@createInitialRouterState Tree Node Data P PF Loc createHrefFromUrl p).canonicalUrl = p.initialCanonicalUrl) := by
  refine ⟨rfl, rfl, rfl, rfl, ?_, ?_⟩
  · intro loc hloc
    unfold createInitialRouterState
    rw [hloc]
  · intro hloc
    unfold createInitialRouterState
    rw [hloc]

/-- Concrete parameters with a non-null location, for the C8 witness. -/
def paramsWithLocation : InitialRouterStateParameters Nat String Nat String where
  initialTree := 7
  initialCanonicalUrl := "/initial"
  children := "children"
  initialParallelRoutes := [("slot", 1)]
  isServer := false
  location := some "https://example.test/a?b#c"

/-- Witness for C8 at `paramsWithLocation` (`Data`/`PF` instantiated at
`Nat`), discharging the `location = some _` hypothesis. -/
theorem createInitialRouterState_fields_witness :
    (@createInitialRouterState Nat String Nat Nat Nat String (fun l => l) paramsWithLocation).canonicalUrl = "https://example.test/a?b#c" :=
  ((@createInitialRouterState_fields Nat String Nat Nat Nat String (fun l => l) paramsWithLocation).2.2.2.2.1
      "https://example.test/a?b#c" rfl)

/-- C10: every state built by `createInitialRouterState` satisfies the
initial-state invariant: `cache.status` is `READY`, `pushRef.pendingPush`
and `pushRef.mpaNavigation` are false, `focusAndScrollRef.apply` is false;
on the server the cache's `parallelRoutes` is a fresh empty map (ignoring
`initialParallelRoutes`), in the browser it is exactly
`initialParallelRoutes`. -/
theorem createInitialRouterState_invariant {Tree Node Data P PF Loc : Type}
    (createHrefFromUrl : Loc → String)
    (p : InitialRouterStateParameters Tree Node P Loc) :
    (@createInitialRouterState Tree Node Data P PF Loc createHrefFromUrl p).cache.status = CacheStates.ready ∧
    (@createInitialRouterState Tree Node Data P PF Loc createHrefFromUrl p).pushRef = { pendingPush := false, mpaNavigation := false } ∧
    (@createInitialRouterState Tree Node Data P PF Loc createHrefFromUrl p).focusAndScrollRef.apply = false ∧
    (p.isServer = true →
      (@createInitialRouterState Tree Node Data P PF Loc createHrefFromUrl p).cache.parallelRoutes = []) ∧
    (p.isServer = false →
      (@createInitialRouterState Tree Node Data P PF Loc createHrefFromUrl p).cache.parallelRoutes = p.initialParallelRoutes) := by
  refine ⟨rfl, rfl, rfl, ?_, ?_⟩
  · intro h
    unfold createInitialRouterState
    simp [h]
  · intro h
    unfold createInitialRouterState
    simp [h]

/-- Witness for C10 at `paramsWithLocation` (a browser-side call):
`parallelRoutes` is exactly the passed-in map. -/
theorem createInitialRouterState_invariant_witness :
    (@createInitialRouterState Nat String Nat Nat Nat String (fun l => l) paramsWithLocation).cache.parallelRoutes = [("slot", 1)] :=
  ((@createInitialRouterState_invariant Nat String Nat Nat Nat String (fun l => l) paramsWithLocation).2.2.2.2 rfl)

end RouterState

end NextExcerpt
